import Mathlib

/-!
# Verification of the `BankAccount` class (src/bank_account_test1.py)

Shallow embedding of the single Python class `BankAccount`. Monetary
amounts are modelled as rationals (the source uses `float`; the spec
recommends an exact numeric type). Wall-clock timestamps
(`datetime.now()`) are modelled as an explicit natural-number clock
value passed to each operation that reads the clock. The class-level
counter `__total_accounts` is modelled as explicit state threaded
through construction.

Python raises `ValueError` before performing any state change in the
failing branches; each mutating method is therefore embedded as a
function returning the post-state paired with an optional error, where
the error branches return the input state unchanged — exactly mirroring
the order of statements in the source.
-/

/-- Account status; the source stores the strings "active" / "suspended"
in `self.__account_status`. -/
inductive Status
  | active
  | suspended
  deriving DecidableEq

/-- Transaction type tag; the source stores the strings "deposit" /
"withdraw" in the `"type"` field of the transaction dict. -/
inductive TxKind
  | deposit
  | withdraw
  deriving DecidableEq

/-- One record of the transaction history: the dict built by
`__add_transaction` with keys `"type"`, `"amount"`, `"timestamp"`,
`"balance_after"`. -/
structure Transaction where
  kind : TxKind
  amount : ℚ
  timestamp : ℕ
  balance_after : ℚ
  deriving DecidableEq

instance : Inhabited Transaction := ⟨⟨TxKind.deposit, 0, 0, 0⟩⟩

/-- The three failure kinds of `deposit` / `withdraw`; the source raises
`ValueError` with a distinct (Thai) message at each of the three raise
sites. -/
inductive BankError
  | AccountSuspended
  | InvalidAmount
  | InsufficientFunds
  deriving DecidableEq

/-- The private instance attributes of a `BankAccount` object
(`__account_number`, `__balance`, `__name`, `__transaction_history`,
`__account_status`, `__created_at`). -/
structure BankAccount where
  account_number : ℤ
  balance : ℚ
  name : String
  transaction_history : List Transaction
  account_status : Status
  created_at : ℕ
  deriving DecidableEq

/-- `__init__`: sets the private attributes (history empty, status
active, `created_at` from the ambient clock `now`) and increments the
class-level counter `__total_accounts`, passed in as `total_accounts`
and returned incremented. -/
def BankAccount.init (account_number : ℤ) (balance : ℚ) (name : String)
    (now : ℕ) (total_accounts : ℕ) : BankAccount × ℕ :=
  (⟨account_number, balance, name, [], Status.active, now⟩, total_accounts + 1)

/-- `__add_transaction`: appends a record whose `balance_after` is the
current (already updated) balance and whose timestamp is the ambient
clock `now`. -/
def BankAccount.add_transaction (a : BankAccount) (transaction_type : TxKind)
    (amount : ℚ) (now : ℕ) : BankAccount :=
  { a with transaction_history :=
      a.transaction_history ++ [⟨transaction_type, amount, now, a.balance⟩] }

/-- `deposit`: raise `AccountSuspended` if the status is not active,
then `InvalidAmount` if `amount <= 0`; otherwise add to the balance and
append a deposit transaction. An error returns the state unchanged
(Python raises before any mutation). -/
def BankAccount.deposit (a : BankAccount) (amount : ℚ) (now : ℕ) :
    BankAccount × Option BankError :=
  if a.account_status ≠ Status.active then
    (a, some BankError.AccountSuspended)
  else if amount ≤ 0 then
    (a, some BankError.InvalidAmount)
  else
    let a1 : BankAccount := { a with balance := a.balance + amount }
    (a1.add_transaction TxKind.deposit amount now, none)

/-- `withdraw`: raise `AccountSuspended` if the status is not active,
then `InvalidAmount` if `amount <= 0`, then `InsufficientFunds` if
`balance < amount`; otherwise subtract from the balance and append a
withdraw transaction. An error returns the state unchanged. -/
def BankAccount.withdraw (a : BankAccount) (amount : ℚ) (now : ℕ) :
    BankAccount × Option BankError :=
  if a.account_status ≠ Status.active then
    (a, some BankError.AccountSuspended)
  else if amount ≤ 0 then
    (a, some BankError.InvalidAmount)
  else if a.balance < amount then
    (a, some BankError.InsufficientFunds)
  else
    let a1 : BankAccount := { a with balance := a.balance - amount }
    (a1.add_transaction TxKind.withdraw amount now, none)

/-- `get_balance`: returns the current balance. -/
def BankAccount.get_balance (a : BankAccount) : ℚ :=
  a.balance

/-- `get_transaction_history`: returns `self.__transaction_history.copy()`,
i.e. the current list of transaction records (as a list value; the
aliasing of the records inside a shallow copy is modelled separately
below). -/
def BankAccount.get_transaction_history (a : BankAccount) : List Transaction :=
  a.transaction_history

/-- `suspend_account`: unconditionally sets the status to suspended. -/
def BankAccount.suspend_account (a : BankAccount) : BankAccount :=
  { a with account_status := Status.suspended }

/-- `activate_account`: unconditionally sets the status to active. -/
def BankAccount.activate_account (a : BankAccount) : BankAccount :=
  { a with account_status := Status.active }

/-- `get_total_accounts` (classmethod): returns the class-level counter. -/
def get_total_accounts (total_accounts : ℕ) : ℕ :=
  total_accounts

/-- One mutating call on an account, with the clock value it observes. -/
inductive AccountOp
  | deposit (amount : ℚ) (now : ℕ)
  | withdraw (amount : ℚ) (now : ℕ)
  | suspend
  | activate

/-- The state of the account after one call, whether it succeeded or
raised (a raise leaves the prior state intact). -/
def applyOp (a : BankAccount) : AccountOp → BankAccount
  | AccountOp.deposit amount now => (a.deposit amount now).1
  | AccountOp.withdraw amount now => (a.withdraw amount now).1
  | AccountOp.suspend => a.suspend_account
  | AccountOp.activate => a.activate_account

/-- The state of the account after a sequence of calls. -/
def runOps (a : BankAccount) (ops : List AccountOp) : BankAccount :=
  ops.foldl applyOp a

/-- Process-wide state: all constructed accounts plus the class-level
counter `__total_accounts`. -/
structure Bank where
  accounts : List BankAccount
  total_accounts : ℕ

/-- One process-wide event: constructing a new account, or a mutating
call on the account at index `i`. -/
inductive SysOp
  | construct (account_number : ℤ) (balance : ℚ) (name : String) (now : ℕ)
  | acct (i : ℕ) (op : AccountOp)

/-- Process-wide step: construction appends the new account and takes
the incremented counter from `BankAccount.init`; a call on an existing
account leaves the counter untouched. -/
def sysStep (s : Bank) : SysOp → Bank
  | SysOp.construct account_number balance name now =>
      let p := BankAccount.init account_number balance name now s.total_accounts
      ⟨s.accounts ++ [p.1], p.2⟩
  | SysOp.acct i op =>
      match s.accounts[i]? with
      | some a => ⟨s.accounts.set i (applyOp a op), s.total_accounts⟩
      | none => s

/-- Process-wide run. -/
def runSys (s : Bank) (ops : List SysOp) : Bank :=
  ops.foldl sysStep s

/-- Number of constructions in a list of process-wide events. -/
def countConstructs : List SysOp → ℕ
  | [] => 0
  | SysOp.construct _ _ _ _ :: rest => countConstructs rest + 1
  | SysOp.acct _ _ :: rest => countConstructs rest

/-- Signed contribution of a transaction to the balance. -/
def txDelta (t : Transaction) : ℚ :=
  match t.kind with
  | TxKind.deposit => t.amount
  | TxKind.withdraw => -t.amount

/-- The balance-chaining condition on a history, starting from balance
`b`: each record's `balance_after` is the previous running balance plus
the record's signed amount. -/
def chainFrom (b : ℚ) : List Transaction → Prop
  | [] => True
  | t :: rest => t.balance_after = b + txDelta t ∧ chainFrom t.balance_after rest

/-- The `balance_after` of the last record of a history, or `b` if the
history is empty. -/
def lastBalA (b : ℚ) : List Transaction → ℚ
  | [] => b
  | t :: rest => lastBalA t.balance_after rest

/-- Consistency of an account's history with its initial balance `b0`:
the records chain from `b0`, and the last `balance_after` (or `b0`) is
the current balance. -/
def historyOk (b0 : ℚ) (a : BankAccount) : Prop :=
  chainFrom b0 a.transaction_history ∧
  lastBalA b0 a.transaction_history = a.balance

/-!
## Aliasing model for `get_transaction_history`

`self.__transaction_history.copy()` performs a *shallow* copy: the
returned list is a new list object, but its elements are references to
the very same transaction dicts held by the internal list. To reason
about this we model the records as living in a store (the heap of
transaction dicts, addressed by natural numbers) and the history list
as a list of references into that store.
-/

/-- Heap of transaction records (Python dict objects), addressed by
position. -/
abbrev TxStore := List Transaction

/-- An account's internal history as the list of references (dict
object identities) it holds, in order. -/
structure AccountRefs where
  hist_refs : List ℕ

/-- `get_transaction_history` under the reference model: `list.copy()`
returns a new list containing the same record references in the same
order. -/
def AccountRefs.get_transaction_history (a : AccountRefs) : List ℕ :=
  a.hist_refs

/-- In-place mutation of the record stored at reference `r` (mutating a
transaction dict, e.g. `tx["amount"] = ...`). -/
def setRecord (st : TxStore) (r : ℕ) (t : Transaction) : TxStore :=
  st.set r t

/-- The sequence of transaction records observed through a list of
references. -/
def readHistory (st : TxStore) (refs : List ℕ) : List Transaction :=
  refs.map (fun r => st.getD r default)

/-!
## Helper lemmas
-/

@[simp] lemma add_transaction_balance (a : BankAccount) (k : TxKind) (amt : ℚ) (now : ℕ) :
    (a.add_transaction k amt now).balance = a.balance := rfl

@[simp] lemma add_transaction_status (a : BankAccount) (k : TxKind) (amt : ℚ) (now : ℕ) :
    (a.add_transaction k amt now).account_status = a.account_status := rfl

@[simp] lemma add_transaction_history (a : BankAccount) (k : TxKind) (amt : ℚ) (now : ℕ) :
    (a.add_transaction k amt now).transaction_history =
      a.transaction_history ++ [⟨k, amt, now, a.balance⟩] := rfl

@[simp] lemma suspend_account_balance (a : BankAccount) :
    a.suspend_account.balance = a.balance := rfl

@[simp] lemma suspend_account_history (a : BankAccount) :
    a.suspend_account.transaction_history = a.transaction_history := rfl

@[simp] lemma activate_account_balance (a : BankAccount) :
    a.activate_account.balance = a.balance := rfl

@[simp] lemma activate_account_history (a : BankAccount) :
    a.activate_account.transaction_history = a.transaction_history := rfl

lemma applyOp_balance_nonneg (a : BankAccount) (op : AccountOp)
    (h : 0 ≤ a.balance) : 0 ≤ (applyOp a op).balance := by
  cases op with
  | deposit amount now =>
      simp only [applyOp, BankAccount.deposit]
      split
      · exact h
      · split
        · exact h
        · rename_i hpos
          simp only [add_transaction_balance]
          push_neg at hpos
          linarith
  | withdraw amount now =>
      simp only [applyOp, BankAccount.withdraw]
      split
      · exact h
      · split
        · exact h
        · split
          · exact h
          · rename_i hfunds
            simp only [add_transaction_balance]
            push_neg at hfunds
            linarith
  | suspend => simpa using h
  | activate => simpa using h

lemma runOps_preserve (P : BankAccount → Prop)
    (hstep : ∀ a op, P a → P (applyOp a op)) :
    ∀ (ops : List AccountOp) (a : BankAccount), P a → P (runOps a ops) := by
  intro ops
  induction ops with
  | nil => intro a h; exact h
  | cons op rest ih =>
      intro a h
      have : runOps a (op :: rest) = runOps (applyOp a op) rest := rfl
      rw [this]
      exact ih _ (hstep a op h)

lemma lastBalA_append (h : List Transaction) (b : ℚ) (t : Transaction) :
    lastBalA b (h ++ [t]) = t.balance_after := by
  induction h generalizing b with
  | nil => rfl
  | cons x xs ih => simpa [lastBalA] using ih x.balance_after

lemma chainFrom_append (h : List Transaction) (b : ℚ) (t : Transaction) :
    chainFrom b (h ++ [t]) ↔
      chainFrom b h ∧ t.balance_after = lastBalA b h + txDelta t := by
  induction h generalizing b with
  | nil => simp [chainFrom, lastBalA]
  | cons x xs ih =>
      show (x.balance_after = b + txDelta x ∧ chainFrom x.balance_after (xs ++ [t])) ↔
        ((x.balance_after = b + txDelta x ∧ chainFrom x.balance_after xs) ∧
          t.balance_after = lastBalA x.balance_after xs + txDelta t)
      rw [ih x.balance_after]
      tauto

lemma historyOk_applyOp (b0 : ℚ) (a : BankAccount) (op : AccountOp)
    (h : historyOk b0 a) : historyOk b0 (applyOp a op) := by
  obtain ⟨hchain, hlast⟩ := h
  cases op with
  | deposit amount now =>
      simp only [applyOp, BankAccount.deposit]
      split
      · exact ⟨hchain, hlast⟩
      · split
        · exact ⟨hchain, hlast⟩
        · constructor
          · simp only [historyOk] at *
            rw [add_transaction_history, chainFrom_append]
            exact ⟨hchain, by simp [txDelta, hlast]⟩
          · rw [add_transaction_history, lastBalA_append]
            simp
  | withdraw amount now =>
      simp only [applyOp, BankAccount.withdraw]
      split
      · exact ⟨hchain, hlast⟩
      · split
        · exact ⟨hchain, hlast⟩
        · split
          · exact ⟨hchain, hlast⟩
          · constructor
            · rw [add_transaction_history, chainFrom_append]
              refine ⟨hchain, ?_⟩
              simp [txDelta, hlast]
              ring
            · rw [add_transaction_history, lastBalA_append]
              simp
  | suspend =>
      exact ⟨by simpa using hchain, by simpa using hlast⟩
  | activate =>
      exact ⟨by simpa using hchain, by simpa using hlast⟩

lemma getD_set_self (st : TxStore) (r : ℕ) (t : Transaction)
    (h : r < st.length) : (st.set r t).getD r default = t := by
  rw [List.getD_eq_getElem _ _ (by simpa using h)]
  simp

lemma getD_set_other (st : TxStore) (r s : ℕ) (t : Transaction)
    (h : r ≠ s) : (st.set r t).getD s default = st.getD s default := by
  rcases lt_or_le s st.length with hs | hs
  · rw [List.getD_eq_getElem _ _ (by simpa using hs),
      List.getD_eq_getElem _ _ hs]
    simp [List.getElem_set_ne h]
  · rw [List.getD_eq_default _ _ (by simpa using hs),
      List.getD_eq_default _ _ hs]

lemma getD_mem (refs : List ℕ) (i : ℕ) (h : i < refs.length) :
    refs.getD i 0 ∈ refs := by
  rw [List.getD_eq_getElem _ _ h]
  exact List.getElem_mem h

lemma readHistory_setRecord_aux (st : TxStore) (t : Transaction) :
    ∀ (refs : List ℕ) (i : ℕ), i < refs.length → refs.Nodup →
      refs.getD i 0 < st.length →
      readHistory (setRecord st (refs.getD i 0) t) refs =
        (readHistory st refs).set i t := by
  intro refs
  induction refs with
  | nil => intro i hi _ _; simp at hi
  | cons x xs ih =>
      intro i hi hnd hval
      rcases List.nodup_cons.mp hnd with ⟨hx, hxs⟩
      cases i with
      | zero =>
          simp only [List.getD_cons_zero] at hval ⊢
          show (setRecord st x t).getD x default ::
              xs.map (fun r => (setRecord st x t).getD r default) =
            (st.getD x default :: xs.map (fun r => st.getD r default)).set 0 t
          rw [List.set_cons_zero]
          congr 1
          · exact getD_set_self st x t hval
          · exact List.map_congr_left fun r hr =>
              getD_set_other st x r t (fun he => hx (he ▸ hr))
      | succ j =>
          simp only [List.getD_cons_succ] at hval ⊢
          have hj : j < xs.length := by simpa using hi
          have hrx : xs.getD j 0 ≠ x := by
            intro he
            exact hx (he ▸ getD_mem xs j hj)
          show (setRecord st (xs.getD j 0) t).getD x default ::
              xs.map (fun r => (setRecord st (xs.getD j 0) t).getD r default) =
            (st.getD x default :: xs.map (fun r => st.getD r default)).set (j + 1) t
          rw [List.set_cons_succ]
          congr 1
          · exact getD_set_other st (xs.getD j 0) x t hrx
          · exact ih j hj hxs hval

lemma sysStep_construct_total (s : Bank) (account_number : ℤ) (balance : ℚ)
    (name : String) (now : ℕ) :
    (sysStep s (SysOp.construct account_number balance name now)).total_accounts =
      s.total_accounts + 1 := rfl

lemma sysStep_acct_total (s : Bank) (i : ℕ) (op : AccountOp) :
    (sysStep s (SysOp.acct i op)).total_accounts = s.total_accounts := by
  show (match s.accounts[i]? with
    | some a => (⟨s.accounts.set i (applyOp a op), s.total_accounts⟩ : Bank)
    | none => s).total_accounts = s.total_accounts
  cases s.accounts[i]? <;> rfl

lemma runSys_total (ops : List SysOp) :
    ∀ s : Bank, (runSys s ops).total_accounts =
      s.total_accounts + countConstructs ops := by
  induction ops with
  | nil => intro s; rfl
  | cons op rest ih =>
      intro s
      have hstep : runSys s (op :: rest) = runSys (sysStep s op) rest := rfl
      rw [hstep, ih (sysStep s op)]
      cases op with
      | construct account_number balance name now =>
          rw [sysStep_construct_total, countConstructs]
          omega
      | acct i o =>
          rw [sysStep_acct_total, countConstructs]

/-- Concrete active account used by witnesses: the demonstration
driver's account (number 1001, balance 1000). -/
def acct0 : BankAccount :=
  ⟨1001, 1000, "somchai", [], Status.active, 0⟩

/-- Concrete suspended account used by witnesses. -/
def acctSusp : BankAccount :=
  ⟨1001, 1000, "somchai", [], Status.suspended, 0⟩

/-!
## The claims
-/

/-- Claim C1, counterexample: the constructor accepts any initial
balance without validation, so an account constructed with initial
balance -1 has a negative balance immediately after construction. -/
theorem C1_counterexample :
    ¬ (0 ≤ ((BankAccount.init 1 (-1) "x" 0 0).1).balance) := by
  show ¬ ((0 : ℚ) ≤ -1)
  norm_num

/-- Claim C1 (amended): provided the initial balance is non-negative,
the balance is >= 0 after construction and after every subsequent
sequence of deposits, withdrawals, suspends and activates. -/
theorem C1_balance_nonneg (account_number : ℤ) (b0 : ℚ) (name : String)
    (now total_accounts : ℕ) (ops : List AccountOp) (h : 0 ≤ b0) :
    0 ≤ (runOps (BankAccount.init account_number b0 name now total_accounts).1
          ops).balance := by
  exact runOps_preserve (fun a => 0 ≤ a.balance) applyOp_balance_nonneg ops _ h

/-- Witness for C1 at a concrete input. -/
theorem C1_witness :
    0 ≤ (runOps (BankAccount.init 1001 1000 "somchai" 0 0).1
          [AccountOp.deposit 500 1, AccountOp.withdraw 300 2]).balance :=
  C1_balance_nonneg 1001 1000 "somchai" 0 0
    [AccountOp.deposit 500 1, AccountOp.withdraw 300 2] (by norm_num)

/-- Claim C2: on an active account, a deposit of a positive amount
succeeds (no error), increases the balance by exactly the amount, and
appends exactly one deposit transaction whose balance_after is the new
balance. -/
theorem C2_deposit_ok (a : BankAccount) (amount : ℚ) (now : ℕ)
    (hact : a.account_status = Status.active) (hpos : 0 < amount) :
    (a.deposit amount now).2 = none ∧
    (a.deposit amount now).1.balance = a.balance + amount ∧
    (a.deposit amount now).1.transaction_history =
      a.transaction_history ++
        [⟨TxKind.deposit, amount, now, a.balance + amount⟩] := by
  simp [BankAccount.deposit, hact, not_le.mpr hpos,
    BankAccount.add_transaction]

/-- Witness for C2 at a concrete input. -/
theorem C2_witness :
    (acct0.deposit 500 1).2 = none ∧
    (acct0.deposit 500 1).1.balance = acct0.balance + 500 ∧
    (acct0.deposit 500 1).1.transaction_history =
      acct0.transaction_history ++
        [⟨TxKind.deposit, 500, 1, acct0.balance + 500⟩] :=
  C2_deposit_ok acct0 500 1 rfl (by norm_num)

/-- Claim C3: on an active account, a withdrawal of an amount with
0 < amount <= balance succeeds (no error), decreases the balance by
exactly the amount, and appends exactly one withdraw transaction whose
balance_after is the new balance. -/
theorem C3_withdraw_ok (a : BankAccount) (amount : ℚ) (now : ℕ)
    (hact : a.account_status = Status.active) (hpos : 0 < amount)
    (hle : amount ≤ a.balance) :
    (a.withdraw amount now).2 = none ∧
    (a.withdraw amount now).1.balance = a.balance - amount ∧
    (a.withdraw amount now).1.transaction_history =
      a.transaction_history ++
        [⟨TxKind.withdraw, amount, now, a.balance - amount⟩] := by
  simp [BankAccount.withdraw, hact, not_le.mpr hpos, not_lt.mpr hle,
    BankAccount.add_transaction]

/-- Witness for C3 at a concrete input. -/
theorem C3_witness :
    (acct0.withdraw 300 2).2 = none ∧
    (acct0.withdraw 300 2).1.balance = acct0.balance - 300 ∧
    (acct0.withdraw 300 2).1.transaction_history =
      acct0.transaction_history ++
        [⟨TxKind.withdraw, 300, 2, acct0.balance - 300⟩] :=
  C3_withdraw_ok acct0 300 2 rfl (by norm_num)
    (by show (300 : ℚ) ≤ 1000; norm_num)

/-- Claim C4: withdraw checks its preconditions in order — suspended
first, then non-positive amount, then insufficient funds — the first
failing check determines the error, and every failing call returns the
account state unchanged. -/
theorem C4_withdraw_check_order (a : BankAccount) (amount : ℚ) (now : ℕ) :
    (a.account_status ≠ Status.active →
      a.withdraw amount now = (a, some BankError.AccountSuspended)) ∧
    (a.account_status = Status.active → amount ≤ 0 →
      a.withdraw amount now = (a, some BankError.InvalidAmount)) ∧
    (a.account_status = Status.active → 0 < amount → a.balance < amount →
      a.withdraw amount now = (a, some BankError.InsufficientFunds)) := by
  refine ⟨fun hsusp => ?_, fun hact hnp => ?_, fun hact hpos hfunds => ?_⟩
  · simp [BankAccount.withdraw, hsusp]
  · simp [BankAccount.withdraw, hact, hnp]
  · simp [BankAccount.withdraw, hact, not_le.mpr hpos, hfunds]

/-- Witness for C4, exercising each of the three failure branches at a
concrete input. -/
theorem C4_witness :
    acctSusp.withdraw 5 0 = (acctSusp, some BankError.AccountSuspended) ∧
    acct0.withdraw (-1) 0 = (acct0, some BankError.InvalidAmount) ∧
    acct0.withdraw 2000 0 = (acct0, some BankError.InsufficientFunds) :=
  ⟨(C4_withdraw_check_order acctSusp 5 0).1 (by simp [acctSusp]),
   (C4_withdraw_check_order acct0 (-1) 0).2.1 rfl (by norm_num),
   (C4_withdraw_check_order acct0 2000 0).2.2 rfl (by norm_num)
     (by show (1000 : ℚ) < 2000; norm_num)⟩

/-- Claim C5: whenever deposit or withdraw fails with any error, the
returned account state (balance, history and status together) equals
the state before the call. -/
theorem C5_failure_atomic (a : BankAccount) (amount : ℚ) (now : ℕ)
    (e : BankError) :
    ((a.deposit amount now).2 = some e → (a.deposit amount now).1 = a) ∧
    ((a.withdraw amount now).2 = some e → (a.withdraw amount now).1 = a) := by
  constructor
  · intro hfail
    simp only [BankAccount.deposit] at hfail ⊢
    split at hfail
    · rename_i h1
      simp [h1]
    · split at hfail
      · rename_i h1 h2
        simp [h1, h2]
      · simp at hfail
  · intro hfail
    simp only [BankAccount.withdraw] at hfail ⊢
    split at hfail
    · rename_i h1
      simp [h1]
    · split at hfail
      · rename_i h1 h2
        simp [h1, h2]
      · split at hfail
        · rename_i h1 h2 h3
          simp [h1, h2, h3]
        · simp at hfail

/-- Witness for C5 at a concrete input: a deposit and a withdrawal on a
suspended account both fail and leave the state unchanged. -/
theorem C5_witness :
    (acctSusp.deposit 100 3).1 = acctSusp ∧
    (acctSusp.withdraw 100 3).1 = acctSusp :=
  ⟨(C5_failure_atomic acctSusp 100 3 BankError.AccountSuspended).1
      (by simp [BankAccount.deposit, acctSusp]),
   (C5_failure_atomic acctSusp 100 3 BankError.AccountSuspended).2
      (by simp [BankAccount.withdraw, acctSusp])⟩

/-- Claim C6: after construction with any initial balance and any
sequence of operations, the history chains correctly — each record's
balance_after is the previous record's balance_after plus the amount
(deposit) or minus the amount (withdraw), the first record chains from
the initial balance, and the last record's balance_after (or the
initial balance when the history is empty) is the current balance, so
every record's balance_after is the balance immediately after it was
applied. -/
theorem C6_history_consistent (account_number : ℤ) (b0 : ℚ) (name : String)
    (now total_accounts : ℕ) (ops : List AccountOp) :
    historyOk b0
      (runOps (BankAccount.init account_number b0 name now total_accounts).1
        ops) := by
  refine runOps_preserve (historyOk b0) (historyOk_applyOp b0) ops _ ?_
  exact ⟨trivial, rfl⟩

/-- Claim C7: the process-wide counter equals its starting value plus
the number of constructions, so each construction increments it by
exactly 1, account operations never change it, it never decreases, and
get_total_accounts reports it. -/
theorem C7_total_accounts (s : Bank) (ops : List SysOp) (account_number : ℤ)
    (balance : ℚ) (name : String) (now : ℕ) (i : ℕ) (op : AccountOp) :
    (runSys s ops).total_accounts = s.total_accounts + countConstructs ops ∧
    (sysStep s (SysOp.construct account_number balance name now)).total_accounts
      = s.total_accounts + 1 ∧
    (sysStep s (SysOp.acct i op)).total_accounts = s.total_accounts ∧
    s.total_accounts ≤ (runSys s ops).total_accounts ∧
    get_total_accounts (runSys s ops).total_accounts
      = (runSys s ops).total_accounts := by
  refine ⟨runSys_total ops s,
    sysStep_construct_total s account_number balance name now,
    sysStep_acct_total s i op, ?_, rfl⟩
  rw [runSys_total ops s]
  omega

/-- Claim C8, counterexample: the copy returned by
get_transaction_history is shallow, so mutating a transaction record it
contains changes the account's internal history — here a single-record
history is observed with amount 999 instead of 5 after the record
reached through the returned copy is mutated. -/
theorem C8_counterexample :
    readHistory
        (setRecord [⟨TxKind.deposit, 5, 0, 5⟩]
          ((AccountRefs.get_transaction_history ⟨[0]⟩).getD 0 0)
          ⟨TxKind.deposit, 999, 0, 5⟩)
        (AccountRefs.mk [0]).hist_refs
      ≠ readHistory [⟨TxKind.deposit, 5, 0, 5⟩] (AccountRefs.mk [0]).hist_refs := by
  decide

/-- Claim C8 (amended): get_transaction_history never fails and returns
a new list holding the full ordered log, and mutations of the returned
list itself do not affect the account; but the copy is shallow — it
holds the same record references — so mutating the record reached
through position i of the returned copy updates the account's internal
history at position i. -/
theorem C8_shared_records (a : AccountRefs) (st : TxStore) (i : ℕ)
    (t : Transaction) (hi : i < a.hist_refs.length)
    (hnd : a.hist_refs.Nodup) (hval : a.hist_refs.getD i 0 < st.length) :
    AccountRefs.get_transaction_history a = a.hist_refs ∧
    readHistory
        (setRecord st ((AccountRefs.get_transaction_history a).getD i 0) t)
        a.hist_refs
      = (readHistory st a.hist_refs).set i t :=
  ⟨rfl, readHistory_setRecord_aux st t a.hist_refs i hi hnd hval⟩

/-- Witness for C8 at a concrete input. -/
theorem C8_witness :
    AccountRefs.get_transaction_history ⟨[0, 1]⟩ = [0, 1] ∧
    readHistory
        (setRecord [⟨TxKind.deposit, 5, 0, 5⟩, ⟨TxKind.withdraw, 2, 1, 3⟩]
          ((AccountRefs.get_transaction_history ⟨[0, 1]⟩).getD 1 0)
          ⟨TxKind.withdraw, 7, 1, 3⟩)
        [0, 1]
      = (readHistory [⟨TxKind.deposit, 5, 0, 5⟩, ⟨TxKind.withdraw, 2, 1, 3⟩]
          [0, 1]).set 1 ⟨TxKind.withdraw, 7, 1, 3⟩ :=
  C8_shared_records ⟨[0, 1]⟩
    [⟨TxKind.deposit, 5, 0, 5⟩, ⟨TxKind.withdraw, 2, 1, 3⟩] 1
    ⟨TxKind.withdraw, 7, 1, 3⟩ (by decide) (by decide) (by decide)

/-- Claim C9: suspend_account and activate_account unconditionally set
the status to suspended resp. active, never fail, are idempotent, leave
an already-suspended resp. already-active account entirely unchanged,
and change neither balance nor history. -/
theorem C9_suspend_activate (a : BankAccount) :
    a.suspend_account.account_status = Status.suspended ∧
    a.activate_account.account_status = Status.active ∧
    a.suspend_account.suspend_account = a.suspend_account ∧
    a.activate_account.activate_account = a.activate_account ∧
    (a.account_status = Status.suspended → a.suspend_account = a) ∧
    (a.account_status = Status.active → a.activate_account = a) ∧
    a.suspend_account.balance = a.balance ∧
    a.suspend_account.transaction_history = a.transaction_history ∧
    a.activate_account.balance = a.balance ∧
    a.activate_account.transaction_history = a.transaction_history := by
  refine ⟨rfl, rfl, rfl, rfl, ?_, ?_, rfl, rfl, rfl, rfl⟩
  · intro h
    cases a
    simp_all [BankAccount.suspend_account]
  · intro h
    cases a
    simp_all [BankAccount.activate_account]

/-- Witness for C9 at a concrete input: suspending an already-suspended
account and activating an already-active account are both no-ops. -/
theorem C9_witness :
    acctSusp.suspend_account = acctSusp ∧ acct0.activate_account = acct0 :=
  ⟨(C9_suspend_activate acctSusp).2.2.2.2.1 rfl,
   (C9_suspend_activate acct0).2.2.2.2.2.1 rfl⟩

/-- Claim C10: every single call — deposit, withdraw, suspend or
activate, succeeding or failing — maps an account with non-negative
balance to an account with non-negative balance. -/
theorem C10_single_op_preserves_nonneg (a : BankAccount) (op : AccountOp)
    (h : 0 ≤ a.balance) : 0 ≤ (applyOp a op).balance :=
  applyOp_balance_nonneg a op h

/-- Witness for C10 at a concrete input: withdrawing the whole balance
leaves a non-negative balance. -/
theorem C10_witness : 0 ≤ (applyOp acct0 (AccountOp.withdraw 1000 5)).balance :=
  C10_single_op_preserves_nonneg acct0 (AccountOp.withdraw 1000 5)
    (by show (0 : ℚ) ≤ 1000; norm_num)
